import Mathlib

/-!
Shallow embedding of the HIVEMIND coordinator core
(`src/dist/server/modules/creditSystem.js` — which holds the
`CreditSystem`, `TaskQueue` and `WorkerRegistry` classes —
together with the dispatch paths of `src/dist/server/index.js`
(`HiveServer`) and the HTTP task-creation endpoint of
`src/dist/server/db/schema.js` (`createHttpServer`)).

Numbers stored as SQL `REAL` are embedded as rationals; SQL
`datetime` values are embedded as integer timestamps in seconds,
with `datetime('now')` passed in explicitly as a `now` parameter.
Each SQL `UPDATE ... WHERE` is embedded as a map over the table's
row list applying a per-row conditional update, and each
`SELECT ... WHERE id = ?` lookup as `List.find?`.  Operations
that `throw` in JavaScript before performing any write are
embedded as `Except` values leaving the state unchanged.
-/

namespace Hivemind

/-- Task status values stored in the `tasks.status` column. -/
inductive TaskStatus
  | pending
  | assigned
  | completed
  | failed
  | verified
  deriving DecidableEq

/-- Worker status values stored in the `workers.status` column. -/
inductive WorkerStatus
  | online
  | offline
  | busy
  | disabled
  deriving DecidableEq

/-- Transaction types written by `CreditSystem.deposit` / `CreditSystem.spend`. -/
inductive TxnType
  | deposit
  | spend
  deriving DecidableEq

/-- A row of the `users` table (the columns the credit ledger mutates). -/
structure User where
  credits : ℚ
  totalEarned : ℚ
  totalSpent : ℚ
  deriving DecidableEq

/-- A row of the `transactions` ledger table. -/
structure Txn where
  userId : String
  type : TxnType
  amount : ℚ
  balanceAfter : ℚ
  taskId : Option String
  descr : String
  deriving DecidableEq

/-- Result payload of a task: `complete` stores the reported result,
`fail` stores a wrapped error reason (`JSON.stringify` of an error object
in the source). -/
inductive TaskResult
  | value (data : String)
  | failure (reason : String)
  deriving DecidableEq

/-- A row of the `tasks` table, following `TaskQueue.mapRowToTask`. -/
structure Task where
  id : String
  userId : String
  ttype : String
  status : TaskStatus
  priority : Int
  inputData : String
  resultData : Option TaskResult
  expectedOutputHash : Option String
  actualOutputHash : Option String
  creditsEstimate : ℚ
  creditsPaid : ℚ
  assignedWorkerId : Option String
  startedAt : Option Int
  completedAt : Option Int
  createdAt : Int
  deriving DecidableEq

/-- A row of the `workers` table, following `WorkerRegistry.mapRowToWorker`
(the columns the coordinator reads or mutates). -/
structure Worker where
  id : String
  userId : Option String
  status : WorkerStatus
  reputation : ℚ
  totalTasksCompleted : Nat
  totalTasksFailed : Nat
  totalEarnings : ℚ
  lastHeartbeat : Int
  deriving DecidableEq

/-- The durable store: the tables of `db/schema.js` that the coordinator
core touches.  Users are keyed by id; rows are kept in insertion order. -/
structure HiveState where
  users : List (String × User)
  workers : List Worker
  tasks : List Task
  txns : List Txn
  deriving DecidableEq

/-- First row of `users` matching an id (`SELECT ... WHERE id = ?` + first `step`). -/
def lookupUser (users : List (String × User)) (userId : String) : Option User :=
  (users.find? (fun p => p.1 == userId)).map Prod.snd

/-- Row-conditional update of the `users` table (`UPDATE users ... WHERE id = ?`). -/
def updateUser (users : List (String × User)) (userId : String) (f : User → User) :
    List (String × User) :=
  users.map (fun p => if p.1 == userId then (p.1, f p.2) else p)

namespace CreditSystem

/-- Embeds `CreditSystem.getBalance`: first matching row's `credits`, else 0. -/
def getBalance (s : HiveState) (userId : String) : ℚ :=
  match lookupUser s.users userId with
  | some u => u.credits
  | none => 0

/-- Embeds `CreditSystem.deposit`: looks the user up, raises if absent,
otherwise appends a `deposit` transaction and sets
`credits = newBalance`, `total_earned += amount`. -/
def deposit (s : HiveState) (userId : String) (amount : ℚ) (descr : String) :
    Except String (HiveState × Txn) :=
  match lookupUser s.users userId with
  | none => .error ("User " ++ userId ++ " not found")
  | some u =>
    let newBalance := u.credits + amount
    let txn : Txn := ⟨userId, .deposit, amount, newBalance, none, descr⟩
    .ok ({ s with
            users := updateUser s.users userId
              (fun v => { v with credits := newBalance, totalEarned := v.totalEarned + amount }),
            txns := s.txns ++ [txn] }, txn)

/-- Embeds `CreditSystem.spend`: raises if the user is absent or
`currentCredits < amount`; otherwise appends a `spend` transaction and sets
`credits = newBalance`, `total_spent += amount`. -/
def spend (s : HiveState) (userId : String) (amount : ℚ) (taskId : Option String)
    (descr : String) : Except String (HiveState × Txn) :=
  match lookupUser s.users userId with
  | none => .error ("User " ++ userId ++ " not found")
  | some u =>
    if u.credits < amount then
      .error "Insufficient credits"
    else
      let newBalance := u.credits - amount
      let txn : Txn := ⟨userId, .spend, amount, newBalance, taskId, descr⟩
      .ok ({ s with
              users := updateUser s.users userId
                (fun v => { v with credits := newBalance, totalSpent := v.totalSpent + amount }),
              txns := s.txns ++ [txn] }, txn)

/-- Rounding of `Number(x.toFixed(2))`: to the nearest multiple of 1/100. -/
def toFixed2 (x : ℚ) : ℚ :=
  ((round (x * 100) : ℤ) : ℚ) / 100

/-- Embeds `CreditSystem.calculateCreditsEarned`, following the source's
intermediate multipliers. -/
def calculateCreditsEarned (baseCredits ramGB cores gpuGB reputation : ℚ) : ℚ :=
  let ramMultiplier := max (1/10) ramGB
  let coreMultiplier := max (1/10) cores
  let gpuMultiplier := if 0 < gpuGB then 1 + gpuGB else 1
  let repMultiplier := max (1/10) (min 3 reputation)
  toFixed2 (baseCredits * ramMultiplier * coreMultiplier * gpuMultiplier * repMultiplier)

/-- Embeds `CreditSystem.awardEarnings`.  The coordinator passes the
connection's worker id, which is `undefined` when the connection never
registered; sql.js refuses to bind `undefined`, so the leading earnings
`UPDATE` then throws during bind, before writing anything (modelled as
the error component with the store unchanged).  For a bound id the
earnings update always runs; the deposit to the owning user runs only
when the worker row exists and has a non-null `user_id`, and an
exception from `deposit` propagates with the earnings update already
applied. -/
def awardEarnings (s : HiveState) (workerId : Option String) (amount : ℚ) :
    HiveState × Option String :=
  match workerId with
  | none =>
    (s, some "Wrong API use : tried to bind a value of an unknown type (undefined)")
  | some wid =>
    let s1 := { s with
      workers := s.workers.map (fun w : Worker =>
        if w.id == wid then { w with totalEarnings := w.totalEarnings + amount } else w) }
    match s1.workers.find? (fun w => w.id == wid) with
    | none => (s1, none)
    | some w =>
      match w.userId with
      | none => (s1, none)
      | some uid =>
        match deposit s1 uid amount "Task earnings" with
        | .ok (s2, _) => (s2, none)
        | .error e => (s1, some e)

end CreditSystem

namespace TaskQueue

/-- Embeds `TaskQueue.create`: inserts a row with status `pending`,
`priority = input.priority ?? 0` resolved by the caller, and the remaining
columns at their schema defaults. -/
def create (s : HiveState) (now : Int) (id userId ttype : String) (priority : Int)
    (inputData : String) (creditsEstimate : ℚ) : HiveState :=
  { s with tasks := s.tasks ++
      [{ id := id, userId := userId, ttype := ttype, status := .pending,
         priority := priority, inputData := inputData, resultData := none,
         expectedOutputHash := none, actualOutputHash := none,
         creditsEstimate := creditsEstimate, creditsPaid := 0,
         assignedWorkerId := none, startedAt := none, completedAt := none,
         createdAt := now }] }

/-- Embeds `TaskQueue.getById`: first row of `tasks` matching the id. -/
def getById (s : HiveState) (taskId : String) : Option Task :=
  s.tasks.find? (fun t => t.id == taskId)

/-- Dispatch-order comparison of `getPendingTasks`:
`ORDER BY priority DESC, created_at ASC`. -/
def taskLE (t1 t2 : Task) : Bool :=
  decide (t2.priority < t1.priority ∨
    (t1.priority = t2.priority ∧ t1.createdAt ≤ t2.createdAt))

/-- Embeds `TaskQueue.getPendingTasks`: rows with status `pending`,
ordered by priority descending then creation time ascending, first
`limit` rows. -/
def getPendingTasks (s : HiveState) (limit : Nat) : List Task :=
  (((s.tasks.filter (fun t => t.status == TaskStatus.pending)).mergeSort taskLE).take limit)

/-- Per-row effect of the `UPDATE` in `TaskQueue.assignToWorker`
(`SET status = 'assigned', assigned_worker_id = ?, started_at = now
WHERE id = ? AND status = 'pending'`).  The bound worker id may be
`undefined` (stored as NULL). -/
def assignStep (now : Int) (taskId : String) (workerId : Option String) (t : Task) : Task :=
  if t.id == taskId && t.status == TaskStatus.pending then
    { t with status := .assigned, assignedWorkerId := workerId, startedAt := some now }
  else t

/-- Embeds `TaskQueue.assignToWorker` on the store. -/
def assignToWorker (s : HiveState) (now : Int) (taskId : String) (workerId : Option String) :
    HiveState :=
  { s with tasks := s.tasks.map (assignStep now taskId workerId) }

/-- Per-row effect of the `UPDATE` in `TaskQueue.complete`
(unconditional on status: `WHERE id = ?` only). -/
def completeStep (now : Int) (taskId : String) (resultData : String) (t : Task) : Task :=
  if t.id == taskId then
    { t with status := .completed, resultData := some (.value resultData),
             completedAt := some now }
  else t

/-- Embeds `TaskQueue.complete` on the store. -/
def complete (s : HiveState) (now : Int) (taskId : String) (resultData : String) : HiveState :=
  { s with tasks := s.tasks.map (completeStep now taskId resultData) }

/-- Per-row effect of the `UPDATE` in `TaskQueue.fail`
(unconditional on status). -/
def failStep (taskId : String) (reason : String) (t : Task) : Task :=
  if t.id == taskId then
    { t with status := .failed, resultData := some (.failure reason) }
  else t

/-- Embeds `TaskQueue.fail` on the store. -/
def fail (s : HiveState) (taskId : String) (reason : String) : HiveState :=
  { s with tasks := s.tasks.map (failStep taskId reason) }

/-- Per-row effect of the `UPDATE` in `TaskQueue.verify`
(unconditional on status; target status decided by `isCorrect`). -/
def verifyStep (taskId : String) (outputHash : String) (isCorrect : Bool) (t : Task) : Task :=
  if t.id == taskId then
    { t with status := if isCorrect then .verified else .failed,
             actualOutputHash := some outputHash }
  else t

/-- Embeds `TaskQueue.verify` on the store. -/
def verify (s : HiveState) (taskId : String) (outputHash : String) (isCorrect : Bool) :
    HiveState :=
  { s with tasks := s.tasks.map (verifyStep taskId outputHash isCorrect) }

end TaskQueue

namespace WorkerRegistry

/-- Availability comparison of `getAvailableWorkers`:
`ORDER BY reputation DESC, last_heartbeat ASC`. -/
def availLE (w1 w2 : Worker) : Bool :=
  decide (w2.reputation < w1.reputation ∨
    (w1.reputation = w2.reputation ∧ w1.lastHeartbeat ≤ w2.lastHeartbeat))

/-- Row filter of `getAvailableWorkers`:
`last_heartbeat > datetime('now', '-1 minute') AND status IN ('online', 'busy')
AND reputation >= 0.5`. -/
def availFilter (now : Int) (w : Worker) : Bool :=
  decide (now - 60 < w.lastHeartbeat) &&
    (w.status == WorkerStatus.online || w.status == WorkerStatus.busy) &&
    decide ((1 : ℚ)/2 ≤ w.reputation)

/-- Embeds `WorkerRegistry.getAvailableWorkers`. -/
def getAvailableWorkers (s : HiveState) (now : Int) : List Worker :=
  (s.workers.filter (availFilter now)).mergeSort availLE

/-- Embeds `WorkerRegistry.setStatus` for a bound (string) worker id; its
callers in the coordinator only reach it with a registered id (the
`worker:status` case is guarded by `if (conn.workerId)`, and the dispatch
path throws on an unbindable `undefined` before reaching it). -/
def setStatus (s : HiveState) (workerId : String) (status : WorkerStatus) : HiveState :=
  { s with workers := s.workers.map (fun w : Worker =>
      if w.id == workerId then { w with status := status } else w) }

/-- Embeds `WorkerRegistry.recordTaskCompletion`: back to `online`,
completion count and earnings incremented, reputation nudged up by 0.01
capped at 2.0. -/
def recordTaskCompletion (s : HiveState) (workerId : Option String) (earnings : ℚ) : HiveState :=
  { s with workers := s.workers.map (fun w : Worker =>
      if some w.id == workerId then
        { w with status := .online,
                 totalTasksCompleted := w.totalTasksCompleted + 1,
                 totalEarnings := w.totalEarnings + earnings,
                 reputation := min 2 (w.reputation + 1/100) }
      else w) }

/-- Embeds `WorkerRegistry.recordTaskFailure`: back to `online`,
failure count incremented, reputation nudged down by 0.05 floored at 0.1. -/
def recordTaskFailure (s : HiveState) (workerId : Option String) : HiveState :=
  { s with workers := s.workers.map (fun w : Worker =>
      if some w.id == workerId then
        { w with status := .online,
                 totalTasksFailed := w.totalTasksFailed + 1,
                 reputation := max (1/10) (w.reputation - 5/100) }
      else w) }

end WorkerRegistry

namespace HiveServer

/-- Embeds `HiveServer.dispatchTaskToWorker` (the `worker:request-task`
path): reads the single highest-priority pending task and, for a
registered connection, assigns it to the connection's worker id — with no
check that that worker exists, is live, or is idle — marks that id busy,
and returns the task as read before assignment.  When the connection
never registered, `conn.workerId` is `undefined` and sql.js throws while
binding it inside `assignToWorker`, before the `UPDATE` runs: the store
is unchanged, the task stays pending, and the error propagates to the
message handler. -/
def dispatchTaskToWorker (s : HiveState) (now : Int) (workerId : Option String) :
    HiveState × Except String (Option Task) :=
  match TaskQueue.getPendingTasks s 1 with
  | [] => (s, .ok none)
  | task :: _ =>
    match workerId with
    | none =>
      (s, .error "Wrong API use : tried to bind a value of an unknown type (undefined)")
    | some wid =>
      let s1 := TaskQueue.assignToWorker s now task.id (some wid)
      let s2 := WorkerRegistry.setStatus s1 wid .busy
      (s2, .ok (some task))

/-- Embeds `HiveServer.handleTaskComplete`: completes the task
unconditionally, and if the task row exists awards earnings
(`task.creditsEstimate` to the worker row and, via `deposit`, to the
owning user) and then records the completion on the worker row.  The
second component carries an error propagated out of `awardEarnings`
(in which case `recordTaskCompletion` never runs). -/
def handleTaskComplete (s : HiveState) (now : Int) (workerId : Option String)
    (taskId : String) (result : String) : HiveState × Option String :=
  let s1 := TaskQueue.complete s now taskId result
  match TaskQueue.getById s1 taskId with
  | none => (s1, none)
  | some task =>
    match CreditSystem.awardEarnings s1 workerId task.creditsEstimate with
    | (s2, some e) => (s2, some e)
    | (s2, none) => (WorkerRegistry.recordTaskCompletion s2 workerId task.creditsEstimate, none)

/-- Embeds `HiveServer.handleTaskFailed`: fails the task unconditionally
and, if the task row exists, records the failure on the worker row; with
no registered worker id, sql.js throws while binding `undefined` inside
`recordTaskFailure`, after the task was already failed. -/
def handleTaskFailed (s : HiveState) (workerId : Option String)
    (taskId : String) (reason : String) : HiveState × Option String :=
  let s1 := TaskQueue.fail s taskId reason
  match TaskQueue.getById s1 taskId with
  | none => (s1, none)
  | some _ =>
    match workerId with
    | none =>
      (s1, some "Wrong API use : tried to bind a value of an unknown type (undefined)")
    | some wid => (WorkerRegistry.recordTaskFailure s1 (some wid), none)

/-- Embeds the `task:create` case of `HiveServer.handleMessage`: requires a
truthy `payload.userId` (absent or empty string raises), then calls
`TaskQueue.create` with `payload.credits` as the estimate.  No balance
check and no ledger operation occur on this path. -/
def wsTaskCreate (s : HiveState) (now : Int) (newTaskId : String)
    (userId : Option String) (taskType : String) (inputData : String)
    (credits : ℚ) (priority : Option Int) : HiveState × Option String :=
  match userId with
  | none => (s, some "Authentication required")
  | some uid =>
    if uid == "" then (s, some "Authentication required")
    else
      (TaskQueue.create s now newTaskId uid taskType (priority.getD 0) inputData credits, none)

end HiveServer

namespace Http

/-- Outcome of the `POST /api/tasks` handler. -/
inductive CreateTaskResult
  | ok (taskId : String) (creditsDeducted : ℚ)
  | badRequest (msg : String)
  | serverError (msg : String)
  deriving DecidableEq

/-- Embeds `estimateTaskCredits`: a base rate per task type times
`Math.ceil(prompt.length / 1000)`. -/
def estimateTaskCredits (ttype : String) (prompt : String) : ℚ :=
  let base : ℚ :=
    if ttype == "inference" then 1
    else if ttype == "embedding" then 2
    else if ttype == "tokenization" then 1/2
    else if ttype == "training" then 5
    else 1
  let lengthMultiplier : ℚ := ((prompt.length + 999) / 1000 : ℕ)
  base * lengthMultiplier

/-- The `priority || 1` default of the HTTP handler (0 is falsy). -/
def priorityOr1 (priority : Option Int) : Int :=
  match priority with
  | some p => if p == 0 then 1 else p
  | none => 1

/-- Embeds the `POST /api/tasks` handler of `createHttpServer`: validates
required fields, pre-checks the balance against the estimate, creates the
task, then spends the estimate.  A `spend` failure after creation is caught
by the route's `catch` (500) with the created task left in place. -/
def createTask (s : HiveState) (now : Int) (newTaskId : String)
    (userId ttype prompt : Option String) (priority : Option Int) :
    HiveState × CreateTaskResult :=
  match userId, ttype, prompt with
  | some uid, some ty, some pr =>
    if uid == "" || ty == "" || pr == "" then (s, .badRequest "Missing required fields")
    else
      let creditEstimate := estimateTaskCredits ty pr
      let balance := CreditSystem.getBalance s uid
      if balance < creditEstimate then (s, .badRequest "Insufficient credits")
      else
        let s1 := TaskQueue.create s now newTaskId uid ty (priorityOr1 priority) pr creditEstimate
        match CreditSystem.spend s1 uid creditEstimate (some ("Task: " ++ newTaskId))
            "Task payment" with
        | .ok (s2, _) => (s2, .ok newTaskId creditEstimate)
        | .error e => (s1, .serverError e)
  | _, _, _ => (s, .badRequest "Missing required fields")

end Http

/-! Operation sequences, for the invariant claims. -/

/-- A credit-ledger operation (the two mutating entry points of
`CreditSystem`), carrying its arguments. -/
inductive CreditOp
  | dep (userId : String) (amount : ℚ) (descr : String)
  | sp (userId : String) (amount : ℚ) (taskId : Option String) (descr : String)
  deriving DecidableEq

/-- The amount argument of a credit operation. -/
def CreditOp.amount : CreditOp → ℚ
  | .dep _ a _ => a
  | .sp _ a _ _ => a

/-- Applies one credit operation; a raising operation leaves the store
unchanged (both `deposit` and `spend` throw before any write). -/
def applyCreditOp (s : HiveState) : CreditOp → HiveState
  | .dep u a d =>
    match CreditSystem.deposit s u a d with
    | .ok (s', _) => s'
    | .error _ => s
  | .sp u a t d =>
    match CreditSystem.spend s u a t d with
    | .ok (s', _) => s'
    | .error _ => s

/-- Applies a sequence of credit operations in order. -/
def applyCreditOps (s : HiveState) (ops : List CreditOp) : HiveState :=
  ops.foldl applyCreditOp s

/-- A task-queue lifecycle operation (the four status-mutating entry points
of `TaskQueue`), carrying its arguments and timestamp. -/
inductive TaskOp
  | assign (taskId : String) (workerId : Option String) (now : Int)
  | complete (taskId : String) (result : String) (now : Int)
  | fail (taskId : String) (reason : String)
  | verify (taskId : String) (outputHash : String) (isCorrect : Bool)
  deriving DecidableEq

/-- Applies one task-queue operation. -/
def applyTaskOp (s : HiveState) : TaskOp → HiveState
  | .assign tid wid now => TaskQueue.assignToWorker s now tid wid
  | .complete tid r now => TaskQueue.complete s now tid r
  | .fail tid reason => TaskQueue.fail s tid reason
  | .verify tid h ok => TaskQueue.verify s tid h ok

/-- Applies a sequence of task-queue operations in order. -/
def applyTaskOps (s : HiveState) (ops : List TaskOp) : HiveState :=
  ops.foldl applyTaskOp s

/-- Whether some row of `tasks` with this id is still `pending` — exactly the
condition under which the guarded `UPDATE` of `assignToWorker` writes. -/
def hasPendingTask (s : HiveState) (taskId : String) : Bool :=
  s.tasks.any (fun t => t.id == taskId && t.status == TaskStatus.pending)

/-- Number of `assignToWorker` calls in a sequence that succeed in
transitioning the given task (its status is still `pending` when the call
runs). -/
def countAssignSuccesses (s : HiveState) (ops : List TaskOp) (taskId : String) : Nat :=
  match ops with
  | [] => 0
  | op :: rest =>
    (match op with
     | .assign tid _ _ => if tid == taskId && hasPendingTask s taskId then 1 else 0
     | _ => 0) + countAssignSuccesses (applyTaskOp s op) rest taskId

/-- Position of a status along the state machine
`pending → assigned → completed|failed → verified` of the spec. -/
def statusRank : TaskStatus → Nat
  | .pending => 0
  | .assigned => 1
  | .completed => 2
  | .failed => 2
  | .verified => 3

/-- Balances are nonnegative across the whole `users` table. -/
def UsersNonneg (s : HiveState) : Prop :=
  ∀ p ∈ s.users, 0 ≤ p.2.credits

/-! Spec-side definition for the reward-formula claim. -/

/-- Clamp of the spec's reward formula. -/
def clampQ (lo hi x : ℚ) : ℚ :=
  max lo (min hi x)

/-- Modelled from the spec's words: the reward formula
`base × max(0.1, ramGB) × max(0.1, cores) × (gpuGB>0 ? 1+gpuGB : 1) ×
clamp(reputation, 0.1, 3.0)`, rounded to 2 decimals — to be compared with
`CreditSystem.calculateCreditsEarned` as embedded from the source. -/
def creditsEarnedSpec (base ramGB cores gpuGB reputation : ℚ) : ℚ :=
  CreditSystem.toFixed2 (base * max (1/10) ramGB * max (1/10) cores *
    (if 0 < gpuGB then 1 + gpuGB else 1) * clampQ (1/10) 3 reputation)

/-! Concrete stores used by witnesses and counterexamples. -/

/-- A store holding one registered user with a zero balance. -/
def zeroUserState : HiveState :=
  ⟨[("u1", ⟨0, 0, 0⟩)], [], [], []⟩

/-- The empty store. -/
def emptyState : HiveState :=
  ⟨[], [], [], []⟩

/-- An assigned task with `creditsEstimate` 3, assigned to worker w1. -/
def taskEst3 : Task :=
  { id := "t1", userId := "u0", ttype := "inference", status := .assigned,
    priority := 0, inputData := "in", resultData := none,
    expectedOutputHash := none, actualOutputHash := none,
    creditsEstimate := 3, creditsPaid := 0, assignedWorkerId := some "w1",
    startedAt := some 10, completedAt := none, createdAt := 5 }

/-- A busy worker w1 owned by user u1, at the default reputation 1.0. -/
def workerW1 : Worker :=
  { id := "w1", userId := some "u1", status := .busy, reputation := 1,
    totalTasksCompleted := 0, totalTasksFailed := 0, totalEarnings := 0,
    lastHeartbeat := 50 }

/-- Store for the completion scenario: owner user u1 at balance 0, busy
worker w1, assigned task t1 with estimate 3. -/
def completionState : HiveState :=
  ⟨[("u1", ⟨0, 0, 0⟩)], [workerW1], [taskEst3], []⟩

/-- An online worker whose last heartbeat is 59 seconds old at time 1000. -/
def workerHb59 : Worker :=
  { id := "w59", userId := none, status := .online, reputation := 1,
    totalTasksCompleted := 0, totalTasksFailed := 0, totalEarnings := 0,
    lastHeartbeat := 941 }

/-- An online worker whose last heartbeat is 61 seconds old at time 1000. -/
def workerHb61 : Worker :=
  { id := "w61", userId := none, status := .online, reputation := 1,
    totalTasksCompleted := 0, totalTasksFailed := 0, totalEarnings := 0,
    lastHeartbeat := 939 }

/-- Store holding exactly the 61-second-old and 59-second-old workers. -/
def heartbeatState : HiveState :=
  ⟨[], [workerHb61, workerHb59], [], []⟩

/-- A pending task of priority 5 created first (time 1). -/
def taskPri5a : Task :=
  { id := "t1", userId := "u1", ttype := "inference", status := .pending,
    priority := 5, inputData := "a", resultData := none,
    expectedOutputHash := none, actualOutputHash := none,
    creditsEstimate := 1, creditsPaid := 0, assignedWorkerId := none,
    startedAt := none, completedAt := none, createdAt := 1 }

/-- A pending task of priority 1 created second (time 2). -/
def taskPri1 : Task :=
  { id := "t2", userId := "u1", ttype := "inference", status := .pending,
    priority := 1, inputData := "b", resultData := none,
    expectedOutputHash := none, actualOutputHash := none,
    creditsEstimate := 1, creditsPaid := 0, assignedWorkerId := none,
    startedAt := none, completedAt := none, createdAt := 2 }

/-- A pending task of priority 5 created third (time 3). -/
def taskPri5b : Task :=
  { id := "t3", userId := "u1", ttype := "inference", status := .pending,
    priority := 5, inputData := "c", resultData := none,
    expectedOutputHash := none, actualOutputHash := none,
    creditsEstimate := 1, creditsPaid := 0, assignedWorkerId := none,
    startedAt := none, completedAt := none, createdAt := 3 }

/-- Store with tasks of priorities [5, 1, 5] submitted in that order. -/
def priorityState : HiveState :=
  ⟨[], [], [taskPri5a, taskPri1, taskPri5b], []⟩

/-- Store with one pending task t1 and no workers. -/
def onePendingState : HiveState :=
  ⟨[], [], [taskPri5a], []⟩

/-- Lifecycle prefix driving t1 through assignment, completion and
verification. -/
def lifecycleOps : List TaskOp :=
  [.assign "t1" (some "w1") 10, .complete "t1" "r" 20, .verify "t1" "h" true]

/-- A store holding one registered user with balance 10. -/
def richUserState : HiveState :=
  ⟨[("u1", ⟨10, 0, 0⟩)], [], [], []⟩

end Hivemind

unseal Rat.add Rat.sub Rat.mul Rat.inv List.merge List.mergeSort

namespace Hivemind

/-! Helper lemmas. -/

/-- Looking a user up after a keyed update sees the updated value. -/
theorem lookupUser_updateUser (users : List (String × User)) (uid : String) (f : User → User) :
    lookupUser (updateUser users uid f) uid = (lookupUser users uid).map f := by
  induction users with
  | nil => rfl
  | cons p rest ih =>
    rcases p with ⟨k, v⟩
    by_cases h : k == uid
    · have hb : (k == uid) = true := h
      have l1 : List.find? (fun q : String × User => q.1 == uid)
          ((k, f v) :: List.map (fun q => if q.1 == uid then (q.1, f q.2) else q) rest) =
            some (k, f v) :=
        List.find?_cons_of_pos _ hb
      have l2 : List.find? (fun q : String × User => q.1 == uid) ((k, v) :: rest) =
          some (k, v) :=
        List.find?_cons_of_pos _ hb
      simp only [updateUser, List.map_cons, if_pos h, lookupUser, l1, l2]
      rfl
    · have hb : (k == uid) = false := by simpa using h
      have l1 : List.find? (fun q : String × User => q.1 == uid)
          ((k, v) :: List.map (fun q => if q.1 == uid then (q.1, f q.2) else q) rest) =
            List.find? (fun q : String × User => q.1 == uid)
              (List.map (fun q => if q.1 == uid then (q.1, f q.2) else q) rest) :=
        List.find?_cons_of_neg _ (by simp [hb])
      have l2 : List.find? (fun q : String × User => q.1 == uid) ((k, v) :: rest) =
          List.find? (fun q : String × User => q.1 == uid) rest :=
        List.find?_cons_of_neg _ (by simp [hb])
      simp only [updateUser, List.map_cons, if_neg h, lookupUser, l1, l2]
      exact ih

/-- A successful user lookup comes from a table row. -/
theorem lookupUser_mem {users : List (String × User)} {uid : String}
    {u : User} (h : lookupUser users uid = some u) : (uid, u) ∈ users := by
  unfold lookupUser at h
  cases hf : users.find? (fun p => p.1 == uid) with
  | none => rw [hf] at h; exact Option.noConfusion h
  | some q =>
    rw [hf] at h
    have h3 : q.2 = u := Option.some.inj h
    have hq := List.find?_some hf
    have hmem := List.mem_of_find?_eq_some hf
    have h1 : q.1 = uid := by simpa using hq
    have : q = (uid, u) := by
      cases q with
      | mk a b => simp_all
    rwa [this] at hmem

/-- Evaluation of `deposit` on a missing user. -/
theorem deposit_none {s : HiveState} {uid : String} (a : ℚ) (d : String)
    (hl : lookupUser s.users uid = none) :
    CreditSystem.deposit s uid a d = .error ("User " ++ uid ++ " not found") := by
  unfold CreditSystem.deposit
  simp only [hl]

/-- Evaluation of `deposit` on an existing user. -/
theorem deposit_some {s : HiveState} {uid : String} {u : User} (a : ℚ) (d : String)
    (hl : lookupUser s.users uid = some u) :
    CreditSystem.deposit s uid a d = .ok
      ({ s with
          users := updateUser s.users uid
            (fun v => { v with credits := u.credits + a, totalEarned := v.totalEarned + a }),
          txns := s.txns ++ [⟨uid, .deposit, a, u.credits + a, none, d⟩] },
        ⟨uid, .deposit, a, u.credits + a, none, d⟩) := by
  unfold CreditSystem.deposit
  simp only [hl]

/-- Evaluation of `spend` on a missing user. -/
theorem spend_none {s : HiveState} {uid : String} (a : ℚ) (tid : Option String) (d : String)
    (hl : lookupUser s.users uid = none) :
    CreditSystem.spend s uid a tid d = .error ("User " ++ uid ++ " not found") := by
  unfold CreditSystem.spend
  simp only [hl]

/-- Evaluation of `spend` when the balance does not cover the amount. -/
theorem spend_insufficient {s : HiveState} {uid : String} {u : User} {a : ℚ}
    (tid : Option String) (d : String) (hl : lookupUser s.users uid = some u)
    (hlt : u.credits < a) :
    CreditSystem.spend s uid a tid d = .error "Insufficient credits" := by
  unfold CreditSystem.spend
  simp only [hl, if_pos hlt]

/-- Evaluation of `spend` when the balance covers the amount. -/
theorem spend_ok {s : HiveState} {uid : String} {u : User} {a : ℚ}
    (tid : Option String) (d : String) (hl : lookupUser s.users uid = some u)
    (hge : ¬ u.credits < a) :
    CreditSystem.spend s uid a tid d = .ok
      ({ s with
          users := updateUser s.users uid
            (fun v => { v with credits := u.credits - a, totalSpent := v.totalSpent + a }),
          txns := s.txns ++ [⟨uid, .spend, a, u.credits - a, tid, d⟩] },
        ⟨uid, .spend, a, u.credits - a, tid, d⟩) := by
  unfold CreditSystem.spend
  simp only [hl, if_neg hge]

/-- Every row produced by `updateUser` is a row of the original table,
possibly rewritten by the update function under the key condition. -/
theorem mem_updateUser {users : List (String × User)} {uid : String} {f : User → User}
    {p' : String × User} (h : p' ∈ updateUser users uid f) :
    ∃ p ∈ users, p' = if p.1 == uid then (p.1, f p.2) else p := by
  unfold updateUser at h
  obtain ⟨p, hp, hpe⟩ := List.mem_map.1 h
  exact ⟨p, hp, hpe.symm⟩

/-- One ledger operation with a nonnegative deposit amount preserves
nonnegativity of every balance (`spend` needs no sign condition: its
insufficient-credits guard already forces the new balance to be
nonnegative). -/
theorem applyCreditOp_nonneg {s : HiveState} {op : CreditOp} (hs : UsersNonneg s)
    (hop : 0 ≤ op.amount) : UsersNonneg (applyCreditOp s op) := by
  cases op with
  | dep uid a d =>
    simp only [CreditOp.amount] at hop
    cases hl : lookupUser s.users uid with
    | none =>
      simp only [applyCreditOp, deposit_none a d hl]
      exact hs
    | some u =>
      simp only [applyCreditOp, deposit_some a d hl]
      intro p' hp'
      have hp2 : p' ∈ updateUser s.users uid
          (fun v => { v with credits := u.credits + a, totalEarned := v.totalEarned + a }) := hp'
      obtain ⟨p, hp, hpe⟩ := mem_updateUser hp2
      subst hpe
      split
      · have := hs _ (lookupUser_mem hl)
        exact add_nonneg this hop
      · exact hs p hp
  | sp uid a tid d =>
    cases hl : lookupUser s.users uid with
    | none =>
      simp only [applyCreditOp, spend_none a tid d hl]
      exact hs
    | some u =>
      by_cases hlt : u.credits < a
      · simp only [applyCreditOp, spend_insufficient tid d hl hlt]
        exact hs
      · simp only [applyCreditOp, spend_ok tid d hl hlt]
        intro p' hp'
        have hp2 : p' ∈ updateUser s.users uid
            (fun v => { v with credits := u.credits - a, totalSpent := v.totalSpent + a }) := hp'
        obtain ⟨p, hp, hpe⟩ := mem_updateUser hp2
        subst hpe
        split
        · exact sub_nonneg.2 (not_lt.1 hlt)
        · exact hs p hp

/-- Nonnegativity of all balances is preserved by any sequence of ledger
operations whose amounts are nonnegative. -/
theorem applyCreditOps_nonneg {s : HiveState} {ops : List CreditOp} (hs : UsersNonneg s)
    (hops : ∀ op ∈ ops, 0 ≤ op.amount) : UsersNonneg (applyCreditOps s ops) := by
  induction ops generalizing s with
  | nil => exact hs
  | cons op rest ih =>
    exact ih (applyCreditOp_nonneg hs (hops op (List.mem_cons_self op rest)))
      (fun o ho => hops o (List.mem_cons_of_mem op ho))

/-- No task-queue operation ever writes the status `pending`: if a task id
has a pending row after an operation, it already had one before. -/
theorem hasPendingTask_applyTaskOp {s : HiveState} {op : TaskOp} {tid : String}
    (h : hasPendingTask (applyTaskOp s op) tid = true) : hasPendingTask s tid = true := by
  cases op with
  | assign tid' wid now =>
    simp only [applyTaskOp, TaskQueue.assignToWorker, hasPendingTask, List.any_eq_true] at h ⊢
    obtain ⟨t', ht', hp⟩ := h
    obtain ⟨t, ht, rfl⟩ := List.mem_map.1 ht'
    refine ⟨t, ht, ?_⟩
    unfold TaskQueue.assignStep at hp
    split at hp
    · simp at hp
    · exact hp
  | complete tid' r now =>
    simp only [applyTaskOp, TaskQueue.complete, hasPendingTask, List.any_eq_true] at h ⊢
    obtain ⟨t', ht', hp⟩ := h
    obtain ⟨t, ht, rfl⟩ := List.mem_map.1 ht'
    refine ⟨t, ht, ?_⟩
    unfold TaskQueue.completeStep at hp
    split at hp
    · simp at hp
    · exact hp
  | fail tid' reason =>
    simp only [applyTaskOp, TaskQueue.fail, hasPendingTask, List.any_eq_true] at h ⊢
    obtain ⟨t', ht', hp⟩ := h
    obtain ⟨t, ht, rfl⟩ := List.mem_map.1 ht'
    refine ⟨t, ht, ?_⟩
    unfold TaskQueue.failStep at hp
    split at hp
    · simp at hp
    · exact hp
  | verify tid' hash ok =>
    simp only [applyTaskOp, TaskQueue.verify, hasPendingTask, List.any_eq_true] at h ⊢
    obtain ⟨t', ht', hp⟩ := h
    obtain ⟨t, ht, rfl⟩ := List.mem_map.1 ht'
    refine ⟨t, ht, ?_⟩
    unfold TaskQueue.verifyStep at hp
    split at hp
    · cases ok <;> simp at hp
    · exact hp

/-- Contrapositive form of `hasPendingTask_applyTaskOp`. -/
theorem hasPendingTask_applyTaskOp_false {s : HiveState} (op : TaskOp) {tid : String}
    (h : hasPendingTask s tid = false) : hasPendingTask (applyTaskOp s op) tid = false := by
  cases hq : hasPendingTask (applyTaskOp s op) tid with
  | false => rfl
  | true =>
    have h2 := hasPendingTask_applyTaskOp hq
    rw [h] at h2
    exact absurd h2 (by simp)

/-- After `assignToWorker` runs for an id, no row with that id is pending:
the guarded update rewrote every pending row with the id. -/
theorem hasPendingTask_assignToWorker (s : HiveState) (now : Int) (tid : String)
    (wid : Option String) :
    hasPendingTask (TaskQueue.assignToWorker s now tid wid) tid = false := by
  simp only [hasPendingTask, TaskQueue.assignToWorker, List.any_eq_false]
  intro t' ht'
  obtain ⟨t, ht, rfl⟩ := List.mem_map.1 ht'
  unfold TaskQueue.assignStep
  split
  · simp
  · simp_all

/-- A sequence of task operations starting from a state with no pending row
for an id contains no successful assignment of that id. -/
theorem countAssignSuccesses_of_not_pending {s : HiveState} {ops : List TaskOp} {tid : String}
    (h : hasPendingTask s tid = false) : countAssignSuccesses s ops tid = 0 := by
  induction ops generalizing s with
  | nil => rfl
  | cons op rest ih =>
    have h' := hasPendingTask_applyTaskOp_false op h
    cases op with
    | assign t' w n => simp [countAssignSuccesses, h, ih h']
    | complete t' r n => simp [countAssignSuccesses, ih h']
    | fail t' r => simp [countAssignSuccesses, ih h']
    | verify t' hsh ok => simp [countAssignSuccesses, ih h']

/-- Dispatch-order comparison is transitive. -/
theorem taskLE_trans (a b c : Task) (hab : TaskQueue.taskLE a b = true)
    (hbc : TaskQueue.taskLE b c = true) : TaskQueue.taskLE a c = true := by
  simp only [TaskQueue.taskLE, decide_eq_true_eq] at *
  rcases hab with h1 | ⟨h1, h1'⟩ <;> rcases hbc with h2 | ⟨h2, h2'⟩
  · left; omega
  · left; omega
  · left; omega
  · right; omega

/-- Dispatch-order comparison is total. -/
theorem taskLE_total (a b : Task) :
    (TaskQueue.taskLE a b || TaskQueue.taskLE b a) = true := by
  simp only [TaskQueue.taskLE, Bool.or_eq_true, decide_eq_true_eq]
  omega

/-- Availability-order comparison is transitive. -/
theorem availLE_trans (a b c : Worker) (hab : WorkerRegistry.availLE a b = true)
    (hbc : WorkerRegistry.availLE b c = true) : WorkerRegistry.availLE a c = true := by
  simp only [WorkerRegistry.availLE, decide_eq_true_eq] at *
  rcases hab with h1 | ⟨h1, h1'⟩ <;> rcases hbc with h2 | ⟨h2, h2'⟩
  · left; linarith
  · left; linarith
  · left; linarith
  · right; constructor
    · exact h1.trans h2
    · omega

/-- Availability-order comparison is total. -/
theorem availLE_total (a b : Worker) :
    (WorkerRegistry.availLE a b || WorkerRegistry.availLE b a) = true := by
  simp only [WorkerRegistry.availLE, Bool.or_eq_true, decide_eq_true_eq]
  rcases lt_trichotomy a.reputation b.reputation with h | h | h
  · rcases le_total a.lastHeartbeat b.lastHeartbeat with h' | h'
    · exact Or.inr (Or.inl h)
    · exact Or.inr (Or.inl h)
  · rcases le_total a.lastHeartbeat b.lastHeartbeat with h' | h'
    · exact Or.inl (Or.inr ⟨h, h'⟩)
    · exact Or.inr (Or.inr ⟨h.symm, h'⟩)
  · exact Or.inl (Or.inl h)

/-- Rows of `getPendingTasks` are pending rows of the store. -/
theorem mem_getPendingTasks {s : HiveState} {limit : Nat} {t : Task}
    (h : t ∈ TaskQueue.getPendingTasks s limit) :
    t ∈ s.tasks ∧ t.status = .pending := by
  unfold TaskQueue.getPendingTasks at h
  have h1 := List.mem_of_mem_take h
  have h2 := List.mem_mergeSort.1 h1
  have h3 := List.mem_filter.1 h2
  exact ⟨h3.1, by simpa using h3.2⟩

/-- Reading the balance of a user present in the table. -/
theorem getBalance_of_lookup {s : HiveState} {uid : String} {u : User}
    (hl : lookupUser s.users uid = some u) :
    CreditSystem.getBalance s uid = u.credits := by
  unfold CreditSystem.getBalance
  rw [hl]

/-- Evaluation of the HTTP `POST /api/tasks` handler on the success path:
fields present, user found, estimate covered by the balance. -/
theorem createTask_ok {s : HiveState} {uid ty pr : String} {u : User}
    (now : Int) (ntid : String) (prio : Option Int)
    (h1 : (uid == "") = false) (h2 : (ty == "") = false) (h3 : (pr == "") = false)
    (hl : lookupUser s.users uid = some u)
    (hge : ¬ u.credits < Http.estimateTaskCredits ty pr) :
    Http.createTask s now ntid (some uid) (some ty) (some pr) prio =
      ({ TaskQueue.create s now ntid uid ty (Http.priorityOr1 prio) pr
           (Http.estimateTaskCredits ty pr) with
         users := updateUser (TaskQueue.create s now ntid uid ty (Http.priorityOr1 prio) pr
             (Http.estimateTaskCredits ty pr)).users uid
           (fun v => { v with credits := u.credits - Http.estimateTaskCredits ty pr,
                              totalSpent := v.totalSpent + Http.estimateTaskCredits ty pr }),
         txns := (TaskQueue.create s now ntid uid ty (Http.priorityOr1 prio) pr
             (Http.estimateTaskCredits ty pr)).txns ++
           [⟨uid, .spend, Http.estimateTaskCredits ty pr,
             u.credits - Http.estimateTaskCredits ty pr, some ("Task: " ++ ntid),
             "Task payment"⟩] },
       .ok ntid (Http.estimateTaskCredits ty pr)) := by
  have hbal : CreditSystem.getBalance s uid = u.credits := getBalance_of_lookup hl
  have hnot : ¬ CreditSystem.getBalance s uid < Http.estimateTaskCredits ty pr := by
    rw [hbal]
    exact hge
  have hl1 : lookupUser (TaskQueue.create s now ntid uid ty (Http.priorityOr1 prio) pr
      (Http.estimateTaskCredits ty pr)).users uid = some u := hl
  have hspend := spend_ok (s := TaskQueue.create s now ntid uid ty (Http.priorityOr1 prio)
      pr (Http.estimateTaskCredits ty pr))
    (some ("Task: " ++ ntid)) "Task payment" hl1 hge
  simp only [Http.createTask, h1, h2, h3, Bool.or_self, Bool.or_false, Bool.false_or,
    Bool.false_eq_true, if_false, if_neg hnot, hspend]

/-! Claim theorems. -/

/-- Claim C3 (code bug): a worker completing its assigned task with
`creditsEstimate` 3 sees the task move to `completed`, its status return to
`online`, its reputation rise by 0.01, and its owning user's balance rise by
3 — but its `totalEarnings` rises by 6, not 3, because `handleTaskComplete`
adds the estimate once in `awardEarnings` and a second time in
`recordTaskCompletion`. -/
theorem task_complete_double_earnings :
    (HiveServer.handleTaskComplete completionState 100 (some "w1") "t1" "res").2 = none ∧
    (HiveServer.handleTaskComplete completionState 100 (some "w1") "t1" "res").1.tasks.map
      Task.status = [.completed] ∧
    (HiveServer.handleTaskComplete completionState 100 (some "w1") "t1" "res").1.workers.map
      Worker.status = [.online] ∧
    (HiveServer.handleTaskComplete completionState 100 (some "w1") "t1" "res").1.workers.map
      Worker.reputation = [101/100] ∧
    CreditSystem.getBalance (HiveServer.handleTaskComplete completionState 100 (some "w1")
      "t1" "res").1 "u1" = 3 ∧
    (HiveServer.handleTaskComplete completionState 100 (some "w1") "t1" "res").1.workers.map
      Worker.totalEarnings = [6] ∧
    ¬ (HiveServer.handleTaskComplete completionState 100 (some "w1") "t1" "res").1.workers.map
      Worker.totalEarnings = [3] := by
  decide

/-- Claim C7: `calculateCreditsEarned` computes the spec's reward formula
`base × max(0.1, ramGB) × max(0.1, cores) × (gpuGB>0 ? 1+gpuGB : 1) ×
clamp(reputation, 0.1, 3.0)` rounded to 2 decimals, and takes the three
values the spec lists on its example inputs. -/
theorem calculateCreditsEarned_formula :
    (∀ base ramGB cores gpuGB reputation : ℚ,
      CreditSystem.calculateCreditsEarned base ramGB cores gpuGB reputation =
        creditsEarnedSpec base ramGB cores gpuGB reputation) ∧
    CreditSystem.calculateCreditsEarned 1 2 2 0 1 = 4 ∧
    CreditSystem.calculateCreditsEarned 1 8 4 2 1 = 96 ∧
    CreditSystem.calculateCreditsEarned 1 (1/100) (1/100) 0 1 = 1/100 :=
  ⟨fun _ _ _ _ _ => rfl, by decide, by decide, by decide⟩

/-- Claim C10: `getBalance` on a user id absent from the `users` table
returns 0 without raising, exactly as it does for an existing user whose
balance is 0 — the two cases are indistinguishable from the return value. -/
theorem getBalance_missing_user :
    (∀ (s : HiveState) (uid : String),
      lookupUser s.users uid = none → CreditSystem.getBalance s uid = 0) ∧
    (∀ (s : HiveState) (uid : String) (u : User),
      lookupUser s.users uid = some u → CreditSystem.getBalance s uid = u.credits) ∧
    CreditSystem.getBalance emptyState "u1" = 0 ∧
    CreditSystem.getBalance zeroUserState "u1" = 0 := by
  refine ⟨?_, ?_, by decide, by decide⟩
  · intro s uid h
    unfold CreditSystem.getBalance
    rw [h]
  · intro s uid u h
    unfold CreditSystem.getBalance
    rw [h]

/-- Witness for C10 at concrete stores: the missing user "u2" and the
zero-balance user "u1" both read as balance 0. -/
theorem getBalance_missing_user_witness :
    CreditSystem.getBalance emptyState "u2" = 0 ∧
    CreditSystem.getBalance zeroUserState "u1" = 0 :=
  ⟨getBalance_missing_user.1 emptyState "u2" (by decide),
   getBalance_missing_user.2.1 zeroUserState "u1" ⟨0, 0, 0⟩ (by decide)⟩

/-- Counterexample to claim C2 as stated: `deposit` performs no sign check,
so a deposit of −5 to a user with balance 0 succeeds and drives the balance
to −5 — "balance is never negative after any operation sequence" fails
without a nonnegativity condition on deposit amounts. -/
theorem negative_deposit_counterexample :
    UsersNonneg zeroUserState ∧
    (applyCreditOps zeroUserState [.dep "u1" (-5) "d"]).users.map
      (fun p => p.2.credits) = [-5] ∧
    ¬ UsersNonneg (applyCreditOps zeroUserState [.dep "u1" (-5) "d"]) := by
  refine ⟨by unfold UsersNonneg; decide, by decide, ?_⟩
  intro h
  have := h ("u1", ⟨-5, -5, 0⟩) (by decide)
  norm_num at this

/-- Counterexample to claim C1 as stated: the WebSocket `task:create` path
creates the task (estimate 5) for a user whose balance is 0, with no error,
no ledger transaction, and an unchanged balance — the estimate is not
debited together with task creation, and insufficient funds do not prevent
creation. -/
theorem ws_task_create_no_debit_counterexample :
    CreditSystem.getBalance zeroUserState "u1" = 0 ∧
    (HiveServer.wsTaskCreate zeroUserState 100 "t9" (some "u1") "inference" "in" 5 none).2 =
      none ∧
    (HiveServer.wsTaskCreate zeroUserState 100 "t9" (some "u1") "inference" "in" 5 none).1.tasks.map
      Task.creditsEstimate = [5] ∧
    CreditSystem.getBalance
      (HiveServer.wsTaskCreate zeroUserState 100 "t9" (some "u1") "inference" "in" 5 none).1
      "u1" = 0 ∧
    (HiveServer.wsTaskCreate zeroUserState 100 "t9" (some "u1") "inference" "in" 5 none).1.txns =
      [] := by
  decide

/-- Counterexample to claim C8 as stated: `complete` updates
unconditionally, so a task that has reached `verified` (rank 3) can be
moved back to `completed` (rank 2) — the status does not move only forward
along the state machine. -/
theorem status_monotonic_counterexample :
    (applyTaskOps onePendingState lifecycleOps).tasks.map Task.status = [.verified] ∧
    (applyTaskOps onePendingState
      (lifecycleOps ++ [.complete "t1" "r2" 30])).tasks.map Task.status = [.completed] ∧
    statusRank .completed < statusRank .verified := by
  decide

/-- Claim C2 (amended): `spend` fails whenever the amount exceeds the
current balance and otherwise decreases the balance by the amount, appends
a `spend` transaction, and adds the amount to `totalSpent`; and after any
sequence of deposit/spend operations whose amounts are nonnegative,
starting from nonnegative balances, every balance stays nonnegative (the
amendment is forced: `deposit` does not check signs, so a negative deposit
can drive a balance negative). -/
theorem spend_guard_and_nonneg_balance :
    (∀ (s : HiveState) (uid : String) (u : User) (amount : ℚ) (tid : Option String)
        (d : String),
      lookupUser s.users uid = some u → u.credits < amount →
        CreditSystem.spend s uid amount tid d = .error "Insufficient credits") ∧
    (∀ (s : HiveState) (uid : String) (u : User) (amount : ℚ) (tid : Option String)
        (d : String),
      lookupUser s.users uid = some u → amount ≤ u.credits →
        ∃ s' txn, CreditSystem.spend s uid amount tid d = .ok (s', txn) ∧
          txn = ⟨uid, .spend, amount, u.credits - amount, tid, d⟩ ∧
          lookupUser s'.users uid =
            some ⟨u.credits - amount, u.totalEarned, u.totalSpent + amount⟩ ∧
          s'.txns = s.txns ++ [txn] ∧ s'.workers = s.workers ∧ s'.tasks = s.tasks) ∧
    (∀ (s : HiveState) (ops : List CreditOp),
      UsersNonneg s → (∀ op ∈ ops, 0 ≤ op.amount) →
        UsersNonneg (applyCreditOps s ops)) := by
  refine ⟨?_, ?_, ?_⟩
  · intro s uid u amount tid d hl hlt
    exact spend_insufficient tid d hl hlt
  · intro s uid u amount tid d hl hge
    have hnot : ¬ u.credits < amount := not_lt.2 hge
    refine ⟨_, _, spend_ok tid d hl hnot, rfl, ?_, rfl, rfl, rfl⟩
    show lookupUser (updateUser s.users uid (fun v =>
      { v with credits := u.credits - amount, totalSpent := v.totalSpent + amount })) uid = _
    rw [lookupUser_updateUser, hl]
    rfl
  · intro s ops hs hops
    exact applyCreditOps_nonneg hs hops

/-- Witness for C2 at concrete stores: a spend of 5 against balance 0
fails with the insufficient-credits error, a spend of 4 against balance 10
succeeds leaving balance 6, and a nonnegative-amount operation sequence
keeps every balance nonnegative. -/
theorem spend_guard_and_nonneg_balance_witness :
    CreditSystem.spend zeroUserState "u1" 5 none "d" = .error "Insufficient credits" ∧
    (∃ s' txn, CreditSystem.spend richUserState "u1" 4 (some "t") "p" = .ok (s', txn) ∧
      txn = ⟨"u1", .spend, 4, (10 : ℚ) - 4, some "t", "p"⟩ ∧
      lookupUser s'.users "u1" = some ⟨(10 : ℚ) - 4, 0, (0 : ℚ) + 4⟩ ∧
      s'.txns = richUserState.txns ++ [txn] ∧ s'.workers = richUserState.workers ∧
      s'.tasks = richUserState.tasks) ∧
    UsersNonneg (applyCreditOps richUserState
      [.dep "u1" 2 "d", .sp "u1" 4 (some "t") "p"]) :=
  ⟨spend_guard_and_nonneg_balance.1 zeroUserState "u1" ⟨0, 0, 0⟩ 5 none "d"
      (by decide) (by norm_num),
   spend_guard_and_nonneg_balance.2.1 richUserState "u1" ⟨10, 0, 0⟩ 4 (some "t") "p"
      (by decide) (by norm_num),
   spend_guard_and_nonneg_balance.2.2 richUserState
      [.dep "u1" 2 "d", .sp "u1" 4 (some "t") "p"]
      (by unfold UsersNonneg; decide)
      (by intro op hop; fin_cases hop <;> norm_num [CreditOp.amount])⟩

/-- Claim C1 (amended): only the HTTP `POST /api/tasks` path enforces the
credit debit — it rejects the request and creates no task when the balance
is below the estimate, and otherwise creates the task and then spends the
estimate; the WebSocket `task:create` path creates the task without any
balance check, debit, or ledger entry. -/
theorem task_create_debit_amended :
    (∀ (s : HiveState) (now : Int) (ntid uid ty pr : String) (prio : Option Int),
      uid ≠ "" → ty ≠ "" → pr ≠ "" →
      CreditSystem.getBalance s uid < Http.estimateTaskCredits ty pr →
      Http.createTask s now ntid (some uid) (some ty) (some pr) prio =
        (s, .badRequest "Insufficient credits")) ∧
    (∀ (s : HiveState) (now : Int) (ntid uid ty pr : String) (prio : Option Int) (u : User),
      uid ≠ "" → ty ≠ "" → pr ≠ "" →
      lookupUser s.users uid = some u →
      Http.estimateTaskCredits ty pr ≤ u.credits →
      ∃ s',
        Http.createTask s now ntid (some uid) (some ty) (some pr) prio =
          (s', .ok ntid (Http.estimateTaskCredits ty pr)) ∧
        s'.tasks = s.tasks ++
          [{ id := ntid, userId := uid, ttype := ty, status := .pending,
             priority := Http.priorityOr1 prio, inputData := pr, resultData := none,
             expectedOutputHash := none, actualOutputHash := none,
             creditsEstimate := Http.estimateTaskCredits ty pr, creditsPaid := 0,
             assignedWorkerId := none, startedAt := none, completedAt := none,
             createdAt := now }] ∧
        CreditSystem.getBalance s' uid = u.credits - Http.estimateTaskCredits ty pr ∧
        s'.txns = s.txns ++
          [⟨uid, .spend, Http.estimateTaskCredits ty pr,
            u.credits - Http.estimateTaskCredits ty pr, some ("Task: " ++ ntid),
            "Task payment"⟩]) ∧
    (∀ (s : HiveState) (now : Int) (ntid uid ty inp : String) (c : ℚ) (prio : Option Int),
      uid ≠ "" →
      ∃ s', HiveServer.wsTaskCreate s now ntid (some uid) ty inp c prio = (s', none) ∧
        s'.users = s.users ∧ s'.txns = s.txns ∧
        s'.tasks = s.tasks ++
          [{ id := ntid, userId := uid, ttype := ty, status := .pending,
             priority := prio.getD 0, inputData := inp, resultData := none,
             expectedOutputHash := none, actualOutputHash := none, creditsEstimate := c,
             creditsPaid := 0, assignedWorkerId := none, startedAt := none,
             completedAt := none, createdAt := now }]) := by
  refine ⟨?_, ?_, ?_⟩
  · intro s now ntid uid ty pr prio h1 h2 h3 hb
    have hbu : (uid == "") = false := beq_eq_false_iff_ne.2 h1
    have hbt : (ty == "") = false := beq_eq_false_iff_ne.2 h2
    have hbp : (pr == "") = false := beq_eq_false_iff_ne.2 h3
    simp only [Http.createTask, hbu, hbt, hbp, Bool.or_self, Bool.or_false, Bool.false_or,
      Bool.false_eq_true, if_false, if_pos hb]
  · intro s now ntid uid ty pr prio u h1 h2 h3 hl hge
    have hbu : (uid == "") = false := beq_eq_false_iff_ne.2 h1
    have hbt : (ty == "") = false := beq_eq_false_iff_ne.2 h2
    have hbp : (pr == "") = false := beq_eq_false_iff_ne.2 h3
    have hnot1 : ¬ u.credits < Http.estimateTaskCredits ty pr := not_lt.2 hge
    have hl1 : lookupUser (TaskQueue.create s now ntid uid ty (Http.priorityOr1 prio) pr
        (Http.estimateTaskCredits ty pr)).users uid = some u := hl
    refine ⟨_, createTask_ok now ntid prio hbu hbt hbp hl hnot1, ?_, ?_, ?_⟩
    · rfl
    · refine getBalance_of_lookup (u := ⟨u.credits - Http.estimateTaskCredits ty pr,
        u.totalEarned, u.totalSpent + Http.estimateTaskCredits ty pr⟩) ?_
      show lookupUser (updateUser (TaskQueue.create s now ntid uid ty (Http.priorityOr1 prio)
        pr (Http.estimateTaskCredits ty pr)).users uid (fun v =>
          { v with credits := u.credits - Http.estimateTaskCredits ty pr,
                   totalSpent := v.totalSpent + Http.estimateTaskCredits ty pr })) uid = _
      rw [lookupUser_updateUser, hl1]
      rfl
    · rfl
  · intro s now ntid uid ty inp c prio h1
    have hbu : (uid == "") = false := beq_eq_false_iff_ne.2 h1
    refine ⟨TaskQueue.create s now ntid uid ty (prio.getD 0) inp c, ?_, rfl, rfl, rfl⟩
    simp only [HiveServer.wsTaskCreate, hbu, Bool.false_eq_true, if_false]

/-- Witness for C1 at concrete stores: a zero-balance user is rejected by
the HTTP path with no task created, a balance-10 user is charged the
estimate by the HTTP path, and the WebSocket path creates a task for a
zero-balance user with no ledger entry. -/
theorem task_create_debit_amended_witness :
    Http.createTask zeroUserState 50 "t5" (some "u1") (some "inference") (some "hello")
      none = (zeroUserState, .badRequest "Insufficient credits") ∧
    (∃ s', Http.createTask richUserState 50 "t6" (some "u1") (some "inference") (some "hello")
        none = (s', .ok "t6" (Http.estimateTaskCredits "inference" "hello")) ∧
      CreditSystem.getBalance s' "u1" =
        (10 : ℚ) - Http.estimateTaskCredits "inference" "hello") ∧
    (∃ s', HiveServer.wsTaskCreate zeroUserState 60 "t7" (some "u1") "inference" "x" 5 none =
        (s', none) ∧ s'.txns = zeroUserState.txns) := by
  refine ⟨task_create_debit_amended.1 zeroUserState 50 "t5" "u1" "inference" "hello" none
    (by decide) (by decide) (by decide) (by decide), ?_, ?_⟩
  · obtain ⟨s', e1, e2, e3, e4⟩ := task_create_debit_amended.2.1 richUserState 50 "t6" "u1"
      "inference" "hello" none ⟨10, 0, 0⟩ (by decide) (by decide) (by decide) (by decide)
      (by decide)
    exact ⟨s', e1, e3⟩
  · obtain ⟨s', e1, e2, e3, e4⟩ := task_create_debit_amended.2.2 zeroUserState 60 "t7" "u1"
      "inference" "x" 5 none (by decide)
    exact ⟨s', e1, e3⟩

/-- Claim C4: `assignToWorker` is a compare-and-swap on the status column —
a pending row with the id is rewritten to `assigned` with the worker id and
`startedAt` stamped, any row that is not a pending row with the id is left
unchanged (in particular a later call on an already-assigned task changes
nothing), the whole operation is that per-row update mapped over the table,
and over any sequence of queue operations at most one `assignToWorker` call
succeeds in transitioning a given task id. -/
theorem assignToWorker_cas_spec :
    (∀ (now : Int) (tid : String) (wid : Option String) (t : Task),
      t.id = tid → t.status = .pending →
        TaskQueue.assignStep now tid wid t =
          { t with status := .assigned, assignedWorkerId := wid, startedAt := some now }) ∧
    (∀ (now : Int) (tid : String) (wid : Option String) (t : Task),
      ¬ (t.id = tid ∧ t.status = .pending) → TaskQueue.assignStep now tid wid t = t) ∧
    (∀ (s : HiveState) (now : Int) (tid : String) (wid : Option String),
      (TaskQueue.assignToWorker s now tid wid).tasks =
        s.tasks.map (TaskQueue.assignStep now tid wid)) ∧
    (∀ (s : HiveState) (ops : List TaskOp) (tid : String),
      countAssignSuccesses s ops tid ≤ 1) := by
  refine ⟨?_, ?_, ?_, ?_⟩
  · intro now tid wid t hid hstat
    have hcond : (t.id == tid && t.status == TaskStatus.pending) = true := by
      simp [hid, hstat]
    unfold TaskQueue.assignStep
    rw [if_pos hcond]
  · intro now tid wid t hneg
    unfold TaskQueue.assignStep
    split
    · rename_i hc
      exact absurd (by simpa using hc) hneg
    · rfl
  · intro s now tid wid
    rfl
  · intro s ops tid
    induction ops generalizing s with
    | nil => exact Nat.zero_le 1
    | cons op rest ih =>
      cases op with
      | assign t' w n =>
        by_cases hc : (t' == tid && hasPendingTask s tid) = true
        · have ht' : t' = tid := by
            rw [Bool.and_eq_true] at hc
            exact beq_iff_eq.1 hc.1
          have hafter : hasPendingTask (applyTaskOp s (.assign t' w n)) tid = false := by
            simp only [applyTaskOp, ht']
            exact hasPendingTask_assignToWorker s n tid w
          simp [countAssignSuccesses, hc, countAssignSuccesses_of_not_pending hafter]
        · have hval : countAssignSuccesses s (TaskOp.assign t' w n :: rest) tid =
              countAssignSuccesses (applyTaskOp s (.assign t' w n)) rest tid := by
            simp [countAssignSuccesses, hc]
          rw [hval]
          exact ih _
      | complete t' r n =>
        have hval : countAssignSuccesses s (TaskOp.complete t' r n :: rest) tid =
            countAssignSuccesses (applyTaskOp s (.complete t' r n)) rest tid := by
          simp [countAssignSuccesses]
        rw [hval]
        exact ih _
      | fail t' r =>
        have hval : countAssignSuccesses s (TaskOp.fail t' r :: rest) tid =
            countAssignSuccesses (applyTaskOp s (.fail t' r)) rest tid := by
          simp [countAssignSuccesses]
        rw [hval]
        exact ih _
      | verify t' hsh ok =>
        have hval : countAssignSuccesses s (TaskOp.verify t' hsh ok :: rest) tid =
            countAssignSuccesses (applyTaskOp s (.verify t' hsh ok)) rest tid := by
          simp [countAssignSuccesses]
        rw [hval]
        exact ih _

/-- Witness for C4 at concrete values: a pending task is rewritten by the
step, an already-assigned row is untouched by a later call, and a
double-assign sequence yields at most one success. -/
theorem assignToWorker_cas_spec_witness :
    TaskQueue.assignStep 10 "t1" (some "w1") taskPri5a =
      { taskPri5a with status := .assigned, assignedWorkerId := some "w1",
                       startedAt := some 10 } ∧
    TaskQueue.assignStep 20 "t1" (some "w2") { taskPri5a with status := TaskStatus.assigned } =
      { taskPri5a with status := TaskStatus.assigned } ∧
    countAssignSuccesses onePendingState
      [TaskOp.assign "t1" (some "w1") 10, TaskOp.assign "t1" (some "w2") 20] "t1" ≤ 1 :=
  ⟨assignToWorker_cas_spec.1 10 "t1" (some "w1") taskPri5a (by decide) (by decide),
   assignToWorker_cas_spec.2.1 20 "t1" (some "w2") _ (by decide),
   assignToWorker_cas_spec.2.2.2 onePendingState
     [TaskOp.assign "t1" (some "w1") 10, TaskOp.assign "t1" (some "w2") 20] "t1"⟩

/-- Claim C5: `getAvailableWorkers` returns exactly the workers whose last
heartbeat is within the 60-second window, whose status is online or busy,
and whose reputation is at least 0.5, sorted by reputation descending then
heartbeat ascending; a worker 61 seconds stale is excluded while one 59
seconds stale is included. -/
theorem getAvailableWorkers_spec :
    (∀ (s : HiveState) (now : Int) (w : Worker),
      w ∈ WorkerRegistry.getAvailableWorkers s now ↔
        w ∈ s.workers ∧ now - 60 < w.lastHeartbeat ∧
          (w.status = .online ∨ w.status = .busy) ∧ (1 : ℚ)/2 ≤ w.reputation) ∧
    (∀ (s : HiveState) (now : Int),
      List.Pairwise (fun a b => WorkerRegistry.availLE a b = true)
        (WorkerRegistry.getAvailableWorkers s now)) ∧
    WorkerRegistry.getAvailableWorkers heartbeatState 1000 = [workerHb59] := by
  refine ⟨?_, ?_, by decide⟩
  · intro s now w
    unfold WorkerRegistry.getAvailableWorkers
    rw [List.mem_mergeSort, List.mem_filter]
    unfold WorkerRegistry.availFilter
    simp [Bool.and_eq_true, Bool.or_eq_true, decide_eq_true_eq, and_assoc]
  · intro s now
    exact List.sorted_mergeSort availLE_trans availLE_total _

/-- Claim C6: `getPendingTasks` returns only pending tasks, is sorted by
priority descending then creation time ascending, returns every pending
task when the pending count fits in the limit, and on priorities [5, 1, 5]
submitted in that order returns [task1, task3, task2]. -/
theorem getPendingTasks_spec :
    (∀ (s : HiveState) (limit : Nat) (t : Task),
      t ∈ TaskQueue.getPendingTasks s limit → t ∈ s.tasks ∧ t.status = .pending) ∧
    (∀ (s : HiveState) (limit : Nat) (t : Task),
      (s.tasks.filter (fun t => t.status == TaskStatus.pending)).length ≤ limit →
      t ∈ s.tasks → t.status = .pending → t ∈ TaskQueue.getPendingTasks s limit) ∧
    (∀ (s : HiveState) (limit : Nat),
      List.Pairwise (fun a b => TaskQueue.taskLE a b = true)
        (TaskQueue.getPendingTasks s limit)) ∧
    TaskQueue.getPendingTasks priorityState 100 = [taskPri5a, taskPri5b, taskPri1] := by
  refine ⟨?_, ?_, ?_, by decide⟩
  · intro s limit t h
    exact mem_getPendingTasks h
  · intro s limit t hlen htm hstat
    unfold TaskQueue.getPendingTasks
    rw [List.take_of_length_le]
    · exact List.mem_mergeSort.2 (List.mem_filter.2 ⟨htm, by simp [hstat]⟩)
    · rw [(List.mergeSort_perm _ _).length_eq]
      exact hlen
  · intro s limit
    exact List.Pairwise.sublist (List.take_sublist _ _)
      (List.sorted_mergeSort taskLE_trans taskLE_total _)

/-- Witness for C6 at the concrete [5, 1, 5] store: the first-priority-5
task is pending, fits the limit, and is returned. -/
theorem getPendingTasks_spec_witness :
    taskPri5a ∈ TaskQueue.getPendingTasks priorityState 100 ∧
    taskPri5a ∈ priorityState.tasks ∧ taskPri5a.status = .pending :=
  ⟨getPendingTasks_spec.2.1 priorityState 100 taskPri5a (by decide) (by decide) (by decide),
   by decide, by decide⟩

/-- Claim C8 (amended): the source's `complete`, `fail` and `verify` update
status unconditionally, so the state machine is not monotonic (a `verified`
task can be driven back to `completed`); what does hold is that no task id
ever re-enters `pending`: once no pending row exists for an id, none exists
after any sequence of assignToWorker/complete/fail/verify operations. -/
theorem no_reenter_pending :
    ∀ (s : HiveState) (ops : List TaskOp) (tid : String),
      hasPendingTask s tid = false → hasPendingTask (applyTaskOps s ops) tid = false := by
  intro s ops tid h
  induction ops generalizing s with
  | nil => exact h
  | cons op rest ih =>
    exact ih (applyTaskOp s op) (hasPendingTask_applyTaskOp_false op h)

/-- Witness for C8: after t1 is assigned, running the completion/verify
lifecycle never brings t1 back to pending. -/
theorem no_reenter_pending_witness :
    hasPendingTask (applyTaskOps
      (applyTaskOps onePendingState [.assign "t1" (some "w1") 10]) lifecycleOps) "t1" =
      false :=
  no_reenter_pending _ lifecycleOps "t1" (by decide)

/-- Counterexample to claim C9 as stated: with one pending task and a
connection that never registered a worker, `dispatchTaskToWorker` throws
while binding `undefined` (the sql.js bind error) before the `UPDATE`
runs — the store is unchanged, the task is still pending, and no task row
becomes `assigned` with a null `assignedWorkerId`. -/
theorem dispatch_unregistered_counterexample :
    HiveServer.dispatchTaskToWorker onePendingState 50 none =
      (onePendingState,
       .error "Wrong API use : tried to bind a value of an unknown type (undefined)") ∧
    hasPendingTask onePendingState "t1" = true ∧
    hasPendingTask (HiveServer.dispatchTaskToWorker onePendingState 50 none).1 "t1" = true ∧
    ¬ (∃ t ∈ (HiveServer.dispatchTaskToWorker onePendingState 50 none).1.tasks,
        t.status = TaskStatus.assigned ∧ t.assignedWorkerId = none) := by
  refine ⟨rfl, by decide, by decide, by decide⟩

/-- Claim C9 (amended): a `worker:request-task` message from a registered
connection transitions the top pending task to `assigned` stamped with the
connection's worker id — with no check that that id belongs to an
existing, live, or non-busy worker (any worker row that does match is set
busy regardless of its state); a connection with no registered worker id
instead hits the sql.js refusal to bind `undefined`, so the call throws
with the store unchanged and the pending task not consumed. -/
theorem request_task_dispatch_spec :
    ∀ (s : HiveState) (now : Int) (wid : String) (t : Task) (rest : List Task),
      TaskQueue.getPendingTasks s 1 = t :: rest →
      ((HiveServer.dispatchTaskToWorker s now (some wid)).2 = .ok (some t) ∧
       { t with status := .assigned, assignedWorkerId := some wid, startedAt := some now } ∈
         (HiveServer.dispatchTaskToWorker s now (some wid)).1.tasks ∧
       (∀ w ∈ s.workers, w.id = wid →
         { w with status := WorkerStatus.busy } ∈
           (HiveServer.dispatchTaskToWorker s now (some wid)).1.workers)) ∧
      HiveServer.dispatchTaskToWorker s now none =
        (s, .error "Wrong API use : tried to bind a value of an unknown type (undefined)") := by
  intro s now wid t rest h
  have hmem : t ∈ TaskQueue.getPendingTasks s 1 := by
    rw [h]
    exact List.mem_cons_self t rest
  obtain ⟨htm, hts⟩ := mem_getPendingTasks hmem
  constructor
  · simp only [HiveServer.dispatchTaskToWorker, h]
    refine ⟨?_, ?_, ?_⟩
    · trivial
    · show _ ∈ List.map (TaskQueue.assignStep now t.id (some wid)) s.tasks
      refine List.mem_map.2 ⟨t, htm, ?_⟩
      have hcond : (t.id == t.id && t.status == TaskStatus.pending) = true := by
        simp [hts]
      unfold TaskQueue.assignStep
      rw [if_pos hcond]
    · intro w hw hwid
      show _ ∈ List.map _ s.workers
      refine List.mem_map.2 ⟨w, hw, ?_⟩
      rw [← hwid]
      simp
  · simp only [HiveServer.dispatchTaskToWorker, h]

/-- Witness for C9 at a concrete store: one pending task, a connection
claiming worker id w9 with no such worker registered — the task is still
assigned to w9, and the unregistered connection's request throws with the
store unchanged. -/
theorem request_task_dispatch_spec_witness :
    (HiveServer.dispatchTaskToWorker onePendingState 50 (some "w9")).2 =
      .ok (some taskPri5a) ∧
    { taskPri5a with status := .assigned, assignedWorkerId := some "w9",
                     startedAt := some 50 } ∈
      (HiveServer.dispatchTaskToWorker onePendingState 50 (some "w9")).1.tasks ∧
    HiveServer.dispatchTaskToWorker onePendingState 50 none =
      (onePendingState,
       .error "Wrong API use : tried to bind a value of an unknown type (undefined)") := by
  obtain ⟨⟨h1, h2, h3⟩, h4⟩ := request_task_dispatch_spec onePendingState 50 "w9" taskPri5a []
    (by decide)
  exact ⟨h1, h2, h4⟩

end Hivemind
